import Mathlib

/-!
# Verification of the Maya VAT exporter core

Shallow embedding of the encoding pipeline of the `maya-vat-exporter`
repository (`src/core.py` and `src/utils.py`), together with proofs about
the claims of its specification.

Conventions of the embedding:
* Python floats are modelled as rationals (`Rat`); all arithmetic the
  pipeline performs (subtraction, division, `min`/`max`, `int(...)`
  truncation) is exact on the values the claims quantify over.
* The Maya host is modelled as a `Scene` record: the mesh-existence query,
  the vertex count, and the per-frame vertex reads (`Option`-valued, a
  `none` read modelling a host failure that raises).  `zlib.compress` is
  modelled as an abstract byte-stream function carried by the scene.
* The host's mutable current-time cursor is threaded explicitly: a
  pipeline run maps an entry cursor to `(final cursor, Except error result)`.
* Fallible byte packing (`struct.pack`) is `Option`-valued: `none` models
  the `struct.error` raised on out-of-range values.
-/

abbrev Vec3 := Rat × Rat × Rat

/-- Python `int(x)` on a float: truncation toward zero. -/
def truncInt (x : Rat) : Int := if 0 ≤ x then ⌊x⌋ else ⌈x⌉

/-- Model of `utils.remap_value`: linear remap of `value` from `[old_min, old_max]`
to `[new_min, new_max]`, truncated by `int(...)`; returns `new_min`
unchanged when the old range is degenerate. -/
def remap_value (value old_min old_max : Rat) (new_min new_max : Int) : Int :=
  if old_max = old_min then new_min
  else truncInt ((new_min : Rat) +
    (value - old_min) / (old_max - old_min) * ((new_max : Rat) - (new_min : Rat)))

/-- Per-axis minima and maxima discovered by `utils.find_min_max`. -/
structure MinMax where
  min_x : Rat
  min_y : Rat
  min_z : Rat
  max_x : Rat
  max_y : Rat
  max_z : Rat
deriving DecidableEq, Repr

/-- One update step of the `find_min_max` loop body on a single point. -/
def mmUpdate (acc : Option MinMax) (p : Vec3) : Option MinMax :=
  match acc with
  | none => some ⟨p.1, p.2.1, p.2.2, p.1, p.2.1, p.2.2⟩
  | some m => some ⟨min m.min_x p.1, min m.min_y p.2.1, min m.min_z p.2.2,
                    max m.max_x p.1, max m.max_y p.2.1, max m.max_z p.2.2⟩

/-- Model of `utils.find_min_max`: nested loop over all frames (dict insertion order,
i.e. increasing frame order) and all positions of each frame.  Python seeds
the fold with `float('inf')` / `float('-inf')` sentinels; `none` models the
still-untouched sentinel state (for every finite `x`, `min(inf, x) = x` and
`max(-inf, x) = x`, which is exactly the `none` branch of `mmUpdate`). -/
def find_min_max (all_positions : List (List Vec3)) : Option MinMax :=
  all_positions.foldl (fun acc ps => ps.foldl mmUpdate acc) none

/-- Python `range(a, b + 1)` over ints. -/
def frameList (a b : Int) : List Int :=
  (List.range (b + 1 - a).toNat).map (fun k : Nat => a + (k : Int))

/-- Per-vertex delta of `core.encode_vat` step 2: `pos - proxy_positions[i]`
componentwise.  (Python indexes `proxy_positions[i]` while enumerating
`positions`; with equally long lists — the pipeline invariant — this is the
componentwise `zipWith`.) -/
def computeDeltas (positions proxy : List Vec3) : List Vec3 :=
  List.zipWith
    (fun p q => (p.1 - q.1, p.2.1 - q.2.1, p.2.2 - q.2.2)) positions proxy

/-- The loop of a Python `for` that builds a list and raises on the first
failing element. -/
def mapOption (f : α → Option β) : List α → Option (List β)
  | [] => some []
  | a :: t =>
    match f a with
    | none => none
    | some b => (mapOption f t).map (fun bs => b :: bs)

/-- Python dict lookup `d[k]` on an association list in insertion order. -/
def dictLookup (k : Int) : List (Int × α) → Option α
  | [] => none
  | (k', v) :: t => if k = k' then some v else dictLookup k t

/-! ## `core.save_png` — the minimal PNG encoder -/

/-- The 8-byte PNG signature `b'\x89PNG\r\n\x1a\n'`. -/
def pngSignature : List Nat := [0x89, 0x50, 0x4E, 0x47, 0x0D, 0x0A, 0x1A, 0x0A]

def chunkIHDR : List Nat := [0x49, 0x48, 0x44, 0x52]

def chunkIDAT : List Nat := [0x49, 0x44, 0x41, 0x54]

def chunkIEND : List Nat := [0x49, 0x45, 0x4E, 0x44]

/-- Big-endian 4-byte encoding of an unsigned 32-bit value. -/
def be32bytes (n : Nat) : List Nat :=
  [n / 2 ^ 24 % 256, n / 2 ^ 16 % 256, n / 2 ^ 8 % 256, n % 256]

/-- Model of `struct.pack('>I', n)`: fails (raises `struct.error`)
unless `0 ≤ n < 2^32`. -/
def packU32 (n : Nat) : Option (List Nat) :=
  if n < 2 ^ 32 then some (be32bytes n) else none

/-- One bit step of the reflected CRC-32 (polynomial `0xEDB88320`),
modelling `zlib.crc32`. -/
def crc32step (c : Nat) : Nat :=
  if c % 2 = 1 then (c / 2) ^^^ 0xEDB88320 else c / 2

def crc32byte (c b : Nat) : Nat := crc32step^[8] (c ^^^ b)

/-- Model of `zlib.crc32(data)`: standard CRC-32 over a byte list. -/
def crc32 (data : List Nat) : Nat :=
  (data.foldl crc32byte 0xFFFFFFFF) ^^^ 0xFFFFFFFF

/-- Model of `write_chunk` in `core.save_png`: 4-byte big-endian payload length,
type tag, payload, 4-byte big-endian `crc32(type + data) & 0xffffffff`. -/
def write_chunk (ctype data : List Nat) : Option (List Nat) :=
  (packU32 data.length).map fun lenb =>
    lenb ++ ctype ++ data ++ be32bytes (crc32 (ctype ++ data) % 2 ^ 32)

/-- Model of `struct.pack('>IIBBBBB', width, height, 8, 2, 0, 0, 0)`: the IHDR
payload; fails if a dimension does not fit an unsigned 32-bit field. -/
def ihdrData (width : Nat) (height : Int) : Option (List Nat) :=
  if width < 2 ^ 32 ∧ 0 ≤ height ∧ height < 2 ^ 32 then
    some (be32bytes width ++ be32bytes height.toNat ++ [8, 2, 0, 0, 0])
  else none

/-- The three channel bytes of a pixel are all in `[0, 255]`. -/
def pixInByte (p : Int × Int × Int) : Prop :=
  0 ≤ p.1 ∧ p.1 < 256 ∧ 0 ≤ p.2.1 ∧ p.2.1 < 256 ∧ 0 ≤ p.2.2 ∧ p.2.2 < 256

instance (p : Int × Int × Int) : Decidable (pixInByte p) := by
  unfold pixInByte; infer_instance

/-- The packed 3 bytes of an in-range pixel. -/
def pix3 (p : Int × Int × Int) : List Nat := [p.1.toNat, p.2.1.toNat, p.2.2.toNat]

/-- Model of `struct.pack('BBB', r, g, b)`: fails unless each channel is in
`[0, 255]`. -/
def packPixel (p : Int × Int × Int) : Option (List Nat) :=
  if pixInByte p then some (pix3 p) else none

/-- One scanline of the raw IDAT stream: the `b'\x00'` no-filter byte, then
`struct.pack('BBB', *image_data[y][x])` for `x in range(width)` (an index
out of range models Python's `IndexError`). -/
def rowBytes (row : List (Int × Int × Int)) (width : Nat) : Option (List Nat) :=
  (mapOption (fun x => (row[x]?).bind packPixel) (List.range width)).map
    fun ps => 0 :: ps.flatten

/-- The raw (uncompressed) IDAT byte stream: `for y in range(height)` over
`image_data[y]`. -/
def buildRaw (image_data : List (List (Int × Int × Int))) (width : Nat)
    (height : Int) : Option (List Nat) :=
  (mapOption (fun y => (image_data[y]?).bind fun row => rowBytes row width)
    (List.range height.toNat)).map List.flatten

/-- Model of `core.save_png`, as the byte stream written to the file.  `compress`
abstracts `zlib.compress(·, 9)` (an external library collaborator); `none`
models an exception escaping `save_png`. -/
def save_png (compress : List Nat → List Nat)
    (image_data : List (List (Int × Int × Int))) (width : Nat) (height : Int) :
    Option (List Nat) :=
  match ihdrData width height with
  | none => none
  | some ih =>
    match write_chunk chunkIHDR ih with
    | none => none
    | some c1 =>
      match buildRaw image_data width height with
      | none => none
      | some raw =>
        match write_chunk chunkIDAT (compress raw) with
        | none => none
        | some c2 =>
          match write_chunk chunkIEND [] with
          | none => none
          | some c3 => some (pngSignature ++ c1 ++ c2 ++ c3)

/-! ## The host scene and the sampling pipeline (`core.encode_vat`) -/

/-- The Maya host, as seen by the pipeline.  Per-frame reads are
`Option`-valued: a `none` models the host raising while supplying data.
`positionsAt` takes the frame (the cursor value at the time of the read —
`get_vertex_positions` always follows a `set_current_frame`) and the
world-space flag.  `uvSetPresent` tells whether the configured VAT UV set
name already exists on the mesh; `compress` abstracts `zlib.compress(·, 9)`.
`exportOk` tells whether the FBX export collaborator succeeds. -/
structure Scene where
  meshExists : Bool
  vertexCount : Nat
  positionsAt : Int → Bool → Option (List Vec3)
  normalsAt : Int → Option (List Vec3)
  uvSetPresent : Bool
  exportOk : Bool
  compress : List Nat → List Nat

/-- Exceptions a run of `encode_vat` can raise. -/
inductive VatError where
  /-- `ValueError` of the mesh-existence validation. -/
  | meshNotFound
  /-- `ValueError` of the skip-first-frame validation. -/
  | skipTooFewFrames
  /-- The host raised while supplying per-frame data at this frame. -/
  | hostRead (frame : Int)
  /-- `KeyError` on the `all_deltas` / `all_normals` dict. -/
  | keyError (frame : Int)
  /-- `struct.error` escaping `save_png`. -/
  | pngPack
  /-- `ValueError` of `create_vat_uv` when the mesh has no shape. -/
  | uvNoShape
  /-- `ZeroDivisionError` of `create_vat_uv` computing a pixel size. -/
  | uvZeroDivision
  /-- The FBX export collaborator raised. -/
  | exportFailed
deriving DecidableEq, Repr

/-- The UV coordinates of `utils.create_vat_uv` step 4: for vertex `i`,
`u = (i + 0.5) * (1 / vertex_count)` and `v = 0.5 * (1 / num_frames)`. -/
def vat_uv_coords (vertex_count : Nat) (num_frames : Int) : List (Rat × Rat) :=
  (List.range vertex_count).map fun i : Nat =>
    (((i : Rat) + 1 / 2) * (1 / (vertex_count : Rat)),
     (1 / 2) * (1 / (num_frames : Rat)))

/-- Result record of `utils.create_vat_uv` (`created` / `skipped` as in the
returned dict; `coords` records the UV coordinates the host is asked to
apply — empty when the step is skipped). -/
structure UvResult where
  created : Bool
  skipped : Bool
  coords : List (Rat × Rat)
deriving DecidableEq, Repr

/-- Model of `utils.create_vat_uv`: raises when the mesh has no shape;
returns early (skips) when the UV set exists and `force` is off; otherwise
divides `1.0` by the vertex count and by `num_frames` (the
`ZeroDivisionError` cases) and computes the per-vertex coordinates. -/
def create_vat_uv (sc : Scene) (num_frames : Int) (force : Bool) :
    Except VatError UvResult :=
  if ¬ sc.meshExists then .error .uvNoShape
  else if sc.uvSetPresent ∧ ¬ force then .ok ⟨false, true, []⟩
  else if sc.vertexCount = 0 then .error .uvZeroDivision
  else if num_frames = 0 then .error .uvZeroDivision
  else .ok ⟨true, false, vat_uv_coords sc.vertexCount num_frames⟩

/-- The per-frame sampling loop of `encode_vat` step 2: for each frame,
`set_current_frame(frame)` (so the returned cursor is the last frame set),
read positions (raising stops the loop with the cursor left at that frame),
compute deltas against the proxy, and — when `inc` (include_normals) — also
read normals.  Entries are `(frame, deltas, normals)`, with `normals = []`
when normals are not collected. -/
def sampleLoop (sc : Scene) (ws inc : Bool) (proxy : List Vec3) :
    List Int → Int → Int × Except VatError (List (Int × List Vec3 × List Vec3))
  | [], cursor => (cursor, .ok [])
  | f :: rest, _ =>
    match sc.positionsAt f ws with
    | none => (f, .error (.hostRead f))
    | some ps =>
      match (if inc then sc.normalsAt f else some []) with
      | none => (f, .error (.hostRead f))
      | some ns =>
        match sampleLoop sc ws inc proxy rest f with
        | (c, .ok tl) => (c, .ok ((f, computeDeltas ps proxy, ns) :: tl))
        | (c, .error e) => (c, .error e)

/-- Quantization of one delta into an RGB pixel (`encode_vat` step 4 body):
`remap_value` per axis against the global range, into `[0, 255]`. -/
def pixelOfDelta (mm : MinMax) (d : Vec3) : Int × Int × Int :=
  (remap_value d.1 mm.min_x mm.max_x 0 255,
   remap_value d.2.1 mm.min_y mm.max_y 0 255,
   remap_value d.2.2 mm.min_z mm.max_z 0 255)

/-- Assembly of the position pixel grid (`encode_vat` step 4): one row per
frame in `range(texture_start_frame, frame_end + 1)`, reading
`all_deltas[frame]` from the sampled dict. -/
def buildImage (all_deltas : List (Int × List Vec3 × List Vec3)) (mm : MinMax)
    (texture_start_frame frame_end : Int) :
    Option (List (List (Int × Int × Int))) :=
  mapOption
    (fun f => (dictLookup f all_deltas).map fun e => e.1.map (pixelOfDelta mm))
    (frameList texture_start_frame frame_end)

/-- Quantization of one vertex normal (`encode_vat` step 6 body): fixed
range `[-1, 1]` per axis, X axis negated before the remap. -/
def normalPixel (n : Vec3) : Int × Int × Int :=
  (remap_value (-n.1) (-1) 1 0 255,
   remap_value n.2.1 (-1) 1 0 255,
   remap_value n.2.2 (-1) 1 0 255)

/-- Assembly of the normal pixel grid (`encode_vat` step 6). -/
def buildNormalImage (all_deltas : List (Int × List Vec3 × List Vec3))
    (texture_start_frame frame_end : Int) :
    Option (List (List (Int × Int × Int))) :=
  mapOption
    (fun f => (dictLookup f all_deltas).map fun e => e.2.map normalPixel)
    (frameList texture_start_frame frame_end)

/-- Everything a successful `encode_vat` run returns or writes, together
with the internal sampling state (`all_deltas`) that the specification
quantifies over.  `minmax` is `none` exactly when no point was scanned
(the Python `float('inf')` sentinels survive into the metadata then). -/
structure VatResult where
  width : Nat
  total_frames : Int
  num_frames : Int
  texture_start_frame : Int
  all_deltas : List (Int × List Vec3 × List Vec3)
  minmax : Option MinMax
  image_data : List (List (Int × Int × Int))
  png : List Nat
  normal_png : Option (List Nat)
  uv_created : Bool
  uv_skipped : Bool
  uv_coords : List (Rat × Rat)
  space_world : Bool
  skipped_first : Bool
deriving DecidableEq, Repr

/-- Model of `core.encode_vat` with an explicitly resolved frame range.
`original_frame` is the host cursor at entry (`get_current_frame()`); the
first component of the result is the host cursor when the run returns or
when the exception propagates — note the source has no `try/finally`, so
the `set_current_frame(original_frame)` restore at the end only runs on the
success path. -/
def encode_vat (sc : Scene) (frame_start frame_end : Int)
    (include_normals export_mesh use_world_space force_uv skip_first_frame :
      Bool) (original_frame : Int) :
    Int × Except VatError VatResult :=
  if ¬ sc.meshExists then (original_frame, .error .meshNotFound)
  else
    let total_frames := frame_end - frame_start + 1
    let num_verts := sc.vertexCount
    if skip_first_frame ∧ total_frames < 2 then
      (original_frame, .error .skipTooFewFrames)
    else
      let num_frames := if skip_first_frame then total_frames - 1
                        else total_frames
      let texture_start_frame := if skip_first_frame then frame_start + 1
                                 else frame_start
      -- Step 1: set_current_frame(frame_start); read the proxy positions
      match sc.positionsAt frame_start use_world_space with
      | none => (frame_start, .error (.hostRead frame_start))
      | some proxy_positions =>
        -- Step 2: the sampling loop over range(frame_start, frame_end + 1)
        match sampleLoop sc use_world_space include_normals proxy_positions
            (frameList frame_start frame_end) frame_start with
        | (c, .error e) => (c, .error e)
        | (c, .ok all_deltas) =>
          -- Step 3: global min/max over every sampled delta frame
          let fmm := find_min_max (all_deltas.map fun e => e.2.1)
          -- the default is never read: `fmm = none` only when every delta
          -- list is empty, and then no pixel is ever computed
          let mm := fmm.getD ⟨0, 0, 0, 0, 0, 0⟩
          -- Step 4: assemble rows from texture_start_frame upward
          match buildImage all_deltas mm texture_start_frame frame_end with
          | none => (c, .error (.keyError texture_start_frame))
          | some image_data =>
            -- Step 5: save the position PNG
            match save_png sc.compress image_data num_verts num_frames with
            | none => (c, .error .pngPack)
            | some png =>
              -- Step 6: optional normal texture
              match (if include_normals then
                  match buildNormalImage all_deltas texture_start_frame
                      frame_end with
                  | none => .error (.keyError texture_start_frame)
                  | some ngrid =>
                    match save_png sc.compress ngrid num_verts num_frames with
                    | none => .error .pngPack
                    | some nb => .ok (some nb)
                else (.ok none : Except VatError (Option (List Nat)))) with
              | .error e => (c, .error e)
              | .ok normal_png =>
                -- Step 7 writes the metadata (pure data, recorded below);
                -- Step 8: create the VAT UV set
                match create_vat_uv sc num_frames force_uv with
                | .error e => (c, .error e)
                | .ok uv_result =>
                  -- Step 9: optional FBX export at frame_start
                  let result : VatResult :=
                    { width := num_verts
                      total_frames := total_frames
                      num_frames := num_frames
                      texture_start_frame := texture_start_frame
                      all_deltas := all_deltas
                      minmax := fmm
                      image_data := image_data
                      png := png
                      normal_png := normal_png
                      uv_created := uv_result.created
                      uv_skipped := uv_result.skipped
                      uv_coords := uv_result.coords
                      space_world := use_world_space
                      skipped_first := skip_first_frame }
                  if export_mesh then
                    if sc.exportOk then (original_frame, .ok result)
                    else (frame_start, .error .exportFailed)
                  else (original_frame, .ok result)

/-! ## Specification-side definitions, cursor tracking, and test scenes -/

/-- The per-axis range of `mm` contains the point `p`. -/
def mmBounds (mm : MinMax) (p : Vec3) : Prop :=
  mm.min_x ≤ p.1 ∧ p.1 ≤ mm.max_x ∧ mm.min_y ≤ p.2.1 ∧ p.2.1 ≤ mm.max_y ∧
    mm.min_z ≤ p.2.2 ∧ p.2.2 ≤ mm.max_z

instance (mm : MinMax) (p : Vec3) : Decidable (mmBounds mm p) := by
  unfold mmBounds; infer_instance

/-- The range of `m'` contains the range of `m`. -/
def mmWider (m m' : MinMax) : Prop :=
  m'.min_x ≤ m.min_x ∧ m.max_x ≤ m'.max_x ∧ m'.min_y ≤ m.min_y ∧
    m.max_y ≤ m'.max_y ∧ m'.min_z ≤ m.min_z ∧ m.max_z ≤ m'.max_z

/-- The value of the host cursor after a loop of `set_current_frame` calls:
the last frame of the list, or the default when the list is empty. -/
def lastD (d : Int) : List Int → Int
  | [] => d
  | f :: rest => lastD f rest

/-- Raw scanline stream as the spec describes it: for each row top-first,
one `0x00` no-filter byte, then 3 bytes per pixel in row-major order. -/
def pngSpecScanlines (grid : List (List (Int × Int × Int))) : List Nat :=
  (grid.map fun row => 0 :: (row.map pix3).flatten).flatten

/-- Chunk layout as the spec describes it: 4-byte big-endian payload
length, 4-byte type tag, payload, then 4-byte big-endian CRC-32 computed
over the type tag concatenated with the payload. -/
def pngSpecChunk (tag payload : List Nat) : List Nat :=
  be32bytes payload.length ++ tag ++ payload ++
    be32bytes (crc32 (tag ++ payload) % 2 ^ 32)

/-- The full byte stream as the spec describes it: the PNG signature; an
IHDR chunk declaring width, height, bit depth 8, color type 2, compression
0, filter 0, interlace 0; a single IDAT chunk holding the compression of
the raw scanline stream; and an empty IEND chunk. -/
def pngSpecStream (compress : List Nat → List Nat)
    (grid : List (List (Int × Int × Int))) (w h : Nat) : List Nat :=
  pngSignature ++
    pngSpecChunk chunkIHDR (be32bytes w ++ be32bytes h ++ [8, 2, 0, 0, 0]) ++
    pngSpecChunk chunkIDAT (compress (pngSpecScanlines grid)) ++
    pngSpecChunk chunkIEND []

def exceptIsOk : Except ε α → Bool
  | .ok _ => true
  | .error _ => false

def exceptToOption : Except ε α → Option α
  | .ok a => some a
  | .error _ => none

instance [DecidableEq ε] [DecidableEq α] : DecidableEq (Except ε α) :=
  fun a b =>
    match a, b with
    | .error e, .error e' =>
      if h : e = e' then .isTrue (by rw [h])
      else .isFalse (fun he => by cases he; exact h rfl)
    | .ok x, .ok y =>
      if h : x = y then .isTrue (by rw [h])
      else .isFalse (fun he => by cases he; exact h rfl)
    | .error _, .ok _ => .isFalse (fun he => by cases he)
    | .ok _, .error _ => .isFalse (fun he => by cases he)

/-- A one-vertex scene whose vertex never moves; every host operation
succeeds. -/
def constScene : Scene where
  meshExists := true
  vertexCount := 1
  positionsAt := fun _ _ => some [((0 : Rat), (0 : Rat), (0 : Rat))]
  normalsAt := fun _ => some [((0 : Rat), (0 : Rat), (1 : Rat))]
  uvSetPresent := false
  exportOk := true
  compress := fun _ => []

/-- A one-vertex scene whose host read raises from frame 1 on. -/
def readFailScene : Scene where
  meshExists := true
  vertexCount := 1
  positionsAt := fun f _ =>
    if f ≤ 0 then some [((0 : Rat), (0 : Rat), (0 : Rat))] else none
  normalsAt := fun _ => some [((0 : Rat), (0 : Rat), (1 : Rat))]
  uvSetPresent := false
  exportOk := true
  compress := fun _ => []

/-- The per-frame positions of `skewScene`: one vertex at the origin at
frame 0, at `(-1, -1, -1)` at frame 1, at `(23/10, 23/10, 23/10)` at
frame 2. -/
def skewP (f : Int) : List Vec3 :=
  if f = 0 then [((0 : Rat), (0 : Rat), (0 : Rat))]
  else if f = 1 then [((-1 : Rat), (-1 : Rat), (-1 : Rat))]
  else [((23 / 10 : Rat), (23 / 10 : Rat), (23 / 10 : Rat))]

/-- A one-vertex scene whose motion makes every axis range straddle zero
with a non-representable zero pixel. -/
def skewScene : Scene where
  meshExists := true
  vertexCount := 1
  positionsAt := fun f _ => some (skewP f)
  normalsAt := fun _ => some [((0 : Rat), (0 : Rat), (1 : Rat))]
  uvSetPresent := false
  exportOk := true
  compress := fun _ => []

/-- A scene whose mesh resolves but has zero vertices. -/
def emptyScene : Scene where
  meshExists := true
  vertexCount := 0
  positionsAt := fun _ _ => some []
  normalsAt := fun _ => some []
  uvSetPresent := false
  exportOk := true
  compress := fun _ => []


/-! ## Arithmetic facts about the numeric remapper -/

theorem truncInt_of_nonneg {x : Rat} (h : 0 ≤ x) : truncInt x = ⌊x⌋ := by
  simp [truncInt, h]

theorem remap_value_eq_floor (v lo hi : Rat) (h : hi ≠ lo)
    (hx : 0 ≤ (v - lo) / (hi - lo)) :
    remap_value v lo hi 0 255 = ⌊(v - lo) / (hi - lo) * 255⌋ := by
  have : (0 : Rat) + (v - lo) / (hi - lo) * ((255 : Rat) - (0 : Rat)) =
      (v - lo) / (hi - lo) * 255 := by ring
  rw [remap_value, if_neg h, Int.cast_zero, Int.cast_ofNat, this,
    truncInt_of_nonneg (mul_nonneg hx (by norm_num))]

theorem remap_byte_range {v lo hi : Rat} (h1 : lo ≤ v) (h2 : v ≤ hi) :
    0 ≤ remap_value v lo hi 0 255 ∧ remap_value v lo hi 0 255 ≤ 255 := by
  by_cases h : hi = lo
  · simp [remap_value, h]
  · have hlt : lo < hi := lt_of_le_of_ne (h1.trans h2) (fun e => h e.symm)
    have hd : (0 : Rat) < hi - lo := by linarith
    have ht0 : 0 ≤ (v - lo) / (hi - lo) :=
      div_nonneg (by linarith) (le_of_lt hd)
    have ht1 : (v - lo) / (hi - lo) ≤ 1 := by
      rw [div_le_one hd]; linarith
    rw [remap_value_eq_floor v lo hi h ht0]
    constructor
    · refine Int.le_floor.2 ?_
      push_cast
      exact mul_nonneg ht0 (by norm_num)
    · have : (v - lo) / (hi - lo) * 255 ≤ 255 := by nlinarith
      calc ⌊(v - lo) / (hi - lo) * 255⌋ ≤ ⌊(255 : Rat)⌋ :=
            Int.floor_le_floor this
        _ = 255 := by norm_num

theorem remap_value_at_lo {lo hi : Rat} (h : lo < hi) :
    remap_value lo lo hi 0 255 = 0 := by
  rw [remap_value_eq_floor lo lo hi (ne_of_gt h) (by simp)]
  norm_num

theorem remap_value_at_hi {lo hi : Rat} (h : lo < hi) :
    remap_value hi lo hi 0 255 = 255 := by
  have hd : hi - lo ≠ 0 := by intro e; apply ne_of_gt h; linarith
  rw [remap_value_eq_floor hi lo hi (ne_of_gt h)
    (by rw [div_self hd]; norm_num), div_self hd]
  norm_num

/-- Quantization round-trip error bound: decoding the quantized pixel with
`lo + pixel / 255 * (hi - lo)` recovers the value to within
`(hi - lo) / 255`. -/
theorem remap_roundtrip_bound {v lo hi : Rat} (hlt : lo < hi) (h1 : lo ≤ v)
    (h2 : v ≤ hi) :
    |lo + ((remap_value v lo hi 0 255 : Rat)) / 255 * (hi - lo) - v| ≤
      (hi - lo) / 255 := by
  have hd : (0 : Rat) < hi - lo := by linarith
  have hdne : hi - lo ≠ 0 := ne_of_gt hd
  have ht0 : 0 ≤ (v - lo) / (hi - lo) :=
    div_nonneg (by linarith) (le_of_lt hd)
  rw [remap_value_eq_floor v lo hi (ne_of_gt hlt) ht0]
  set x : Rat := (v - lo) / (hi - lo) * 255 with hxdef
  have hv : v - lo = x / 255 * (hi - lo) := by
    rw [hxdef]; field_simp; ring
  have hf1 : ((⌊x⌋ : Rat)) ≤ x := Int.floor_le x
  have hf2 : x < (⌊x⌋ : Rat) + 1 := Int.lt_floor_add_one x
  have heq : lo + ((⌊x⌋ : Rat)) / 255 * (hi - lo) - v =
      (((⌊x⌋ : Rat)) - x) / 255 * (hi - lo) := by
    have : v = lo + x / 255 * (hi - lo) := by linarith [hv]
    rw [this]; ring
  rw [heq, abs_le]
  constructor
  · have := mul_nonneg (by linarith : (0 : Rat) ≤ (⌊x⌋ : Rat) - x + 1)
      (le_of_lt hd)
    nlinarith
  · have := mul_nonneg (by linarith : (0 : Rat) ≤ x - (⌊x⌋ : Rat))
      (le_of_lt hd)
    nlinarith

/-! ## Facts about the global range discovery -/

theorem mmWider_refl (m : MinMax) : mmWider m m := by
  unfold mmWider; refine ⟨le_refl _, le_refl _, le_refl _, ?_, ?_, ?_⟩ <;>
    exact le_refl _

theorem mmWider_trans {a b c : MinMax} (h1 : mmWider a b) (h2 : mmWider b c) :
    mmWider a c := by
  obtain ⟨u1, u2, u3, u4, u5, u6⟩ := h1
  obtain ⟨w1, w2, w3, w4, w5, w6⟩ := h2
  exact ⟨w1.trans u1, u2.trans w2, w3.trans u3, u4.trans w4, w5.trans u5,
    u6.trans w6⟩

theorem mmBounds_of_wider {m m' : MinMax} {p : Vec3} (hb : mmBounds m p)
    (hw : mmWider m m') : mmBounds m' p := by
  obtain ⟨b1, b2, b3, b4, b5, b6⟩ := hb
  obtain ⟨w1, w2, w3, w4, w5, w6⟩ := hw
  exact ⟨w1.trans b1, b2.trans w2, w3.trans b3, b4.trans w4, w5.trans b5,
    b6.trans w6⟩

theorem mmUpdate_bounds (acc : Option MinMax) (p : Vec3) :
    ∃ m', mmUpdate acc p = some m' ∧ mmBounds m' p ∧
      ∀ m, acc = some m → mmWider m m' := by
  match acc with
  | none =>
    refine ⟨_, rfl, ?_, by simp⟩
    refine ⟨le_refl _, le_refl _, le_refl _, ?_, ?_, ?_⟩ <;> exact le_refl _
  | some m =>
    refine ⟨_, rfl, ?_, ?_⟩
    · exact ⟨min_le_right _ _, le_max_right _ _, min_le_right _ _,
        le_max_right _ _, min_le_right _ _, le_max_right _ _⟩
    · intro m₀ hm₀
      cases hm₀
      exact ⟨min_le_left _ _, le_max_left _ _, min_le_left _ _,
        le_max_left _ _, min_le_left _ _, le_max_left _ _⟩

theorem foldl_mmUpdate_widen (l : List Vec3) (m : MinMax) :
    ∃ mm, l.foldl mmUpdate (some m) = some mm ∧ mmWider m mm := by
  induction l generalizing m with
  | nil => exact ⟨m, rfl, mmWider_refl m⟩
  | cons a t ih =>
    obtain ⟨m₂, hstep, _, hw⟩ := mmUpdate_bounds (some m) a
    obtain ⟨mm, hfold, hw2⟩ := ih m₂
    refine ⟨mm, ?_, mmWider_trans (hw m rfl) hw2⟩
    simpa [hstep] using hfold

theorem foldl_mmUpdate_mem {l : List Vec3} (acc : Option MinMax) {p : Vec3}
    (hp : p ∈ l) :
    ∃ mm, l.foldl mmUpdate acc = some mm ∧ mmBounds mm p := by
  induction l generalizing acc with
  | nil => cases hp
  | cons a t ih =>
    obtain ⟨m₂, hstep, hb, _⟩ := mmUpdate_bounds acc a
    rcases List.mem_cons.1 hp with h | h
    · subst h
      obtain ⟨mm, hfold, hw⟩ := foldl_mmUpdate_widen t m₂
      refine ⟨mm, ?_, mmBounds_of_wider hb hw⟩
      simpa [hstep] using hfold
    · obtain ⟨mm, hfold, hbp⟩ := ih (mmUpdate acc a) h
      exact ⟨mm, hfold, hbp⟩

theorem find_min_max_eq_flatten (all : List (List Vec3)) :
    find_min_max all = all.flatten.foldl mmUpdate none := by
  suffices h : ∀ (acc : Option MinMax),
      all.foldl (fun acc ps => ps.foldl mmUpdate acc) acc =
        all.flatten.foldl mmUpdate acc by
    exact h none
  induction all with
  | nil => intro acc; rfl
  | cons ps t ih =>
    intro acc
    simp only [List.foldl_cons, List.flatten_cons, List.foldl_append]
    exact ih (ps.foldl mmUpdate acc)

/-- Every point of any scanned frame is inside the discovered global range
(and if any point exists the sentinels have been replaced). -/
theorem find_min_max_bounds {all : List (List Vec3)} {ps : List Vec3}
    {p : Vec3} (hps : ps ∈ all) (hp : p ∈ ps) :
    ∃ mm, find_min_max all = some mm ∧ mmBounds mm p := by
  rw [find_min_max_eq_flatten]
  exact foldl_mmUpdate_mem none (List.mem_flatten.2 ⟨ps, hps, hp⟩)

/-- With nothing to scan, the `float('inf')` sentinels survive: scanning
only empty frames leaves the accumulator untouched. -/
theorem find_min_max_all_nil {all : List (List Vec3)}
    (h : ∀ ps ∈ all, ps = []) : find_min_max all = none := by
  rw [find_min_max_eq_flatten]
  have : all.flatten = [] := by
    rw [List.flatten_eq_nil_iff]
    exact h
  rw [this]
  rfl

/-! ## List infrastructure -/

theorem frameList_length (a b : Int) :
    (frameList a b).length = (b + 1 - a).toNat := by
  rw [frameList, List.length_map, List.length_range]

theorem frameList_getElem? (a b : Int) (k : Nat) (hk : k < (b + 1 - a).toNat) :
    (frameList a b)[k]? = some (a + k) := by
  rw [frameList, List.getElem?_map, List.getElem?_range hk]
  rfl

theorem frameList_mem {a b f : Int} : f ∈ frameList a b ↔ a ≤ f ∧ f ≤ b := by
  rw [frameList, List.mem_map]
  constructor
  · rintro ⟨k, hk, rfl⟩
    rw [List.mem_range] at hk
    omega
  · rintro ⟨h1, h2⟩
    refine ⟨(f - a).toNat, ?_, by omega⟩
    rw [List.mem_range]
    omega

theorem computeDeltas_length (ps q : List Vec3) :
    (computeDeltas ps q).length = min ps.length q.length := by
  simp [computeDeltas]

/-- Sampling a frame against itself as proxy yields the all-zero delta
frame. -/
theorem computeDeltas_self (l : List Vec3) :
    computeDeltas l l = List.replicate l.length ((0 : Rat), (0 : Rat), (0 : Rat)) := by
  induction l with
  | nil => rfl
  | cons a t ih =>
    simp only [computeDeltas, List.zipWith_cons_cons, sub_self,
      List.length_cons, List.replicate_succ] at ih ⊢
    rw [ih]

theorem mapOption_eq_map {f : α → Option β} {g : α → β} {l : List α}
    (h : ∀ a ∈ l, f a = some (g a)) : mapOption f l = some (l.map g) := by
  induction l with
  | nil => rfl
  | cons a t ih =>
    rw [mapOption, h a (List.mem_cons_self a t),
      ih fun x hx => h x (List.mem_cons_of_mem a hx)]
    rfl

theorem mapOption_isSome {f : α → Option β} {l : List α}
    (h : ∀ a ∈ l, (f a).isSome) : ∃ bs, mapOption f l = some bs := by
  induction l with
  | nil => exact ⟨[], rfl⟩
  | cons a t ih =>
    obtain ⟨b, hb⟩ := Option.isSome_iff_exists.1 (h a (List.mem_cons_self a t))
    obtain ⟨bs, hbs⟩ := ih fun x hx => h x (List.mem_cons_of_mem a hx)
    exact ⟨b :: bs, by rw [mapOption, hb, hbs]; rfl⟩

/-- Looking a key up in an association list built from a key list by a
function returns the function's value at that key. -/
theorem dictLookup_map {g : Int → α} {ks : List Int} {k : Int} (hk : k ∈ ks) :
    dictLookup k (ks.map fun x => (x, g x)) = some (g k) := by
  induction ks with
  | nil => cases hk
  | cons k' t ih =>
    by_cases h : k = k'
    · subst h; simp [dictLookup]
    · rcases List.mem_cons.1 hk with h' | h'
      · exact absurd h' h
      · simp only [List.map_cons, dictLookup, if_neg h]
        exact ih h'

/-- With every host read succeeding, the sampling loop (without normals)
visits every frame in order, leaves the cursor at the last frame, and
returns the per-frame deltas against the proxy. -/
theorem sampleLoop_total {sc : Scene} {ws : Bool} {P : Int → List Vec3}
    (hreads : ∀ f, sc.positionsAt f ws = some (P f)) (proxy : List Vec3) :
    ∀ (frames : List Int) (c : Int),
      sampleLoop sc ws false proxy frames c =
        (lastD c frames,
         .ok (frames.map fun f => (f, computeDeltas (P f) proxy, []))) := by
  intro frames
  induction frames with
  | nil => intro c; rfl
  | cons f rest ih =>
    intro c
    simp only [sampleLoop, hreads f, if_neg (Bool.false_ne_true ∘ id),
      Bool.false_eq_true, if_false, ih f, lastD, List.map_cons]

/-! ## Serialization lemmas for the image encoder -/

theorem mapOption_congr {f g : α → Option β} {l : List α}
    (h : ∀ a ∈ l, f a = g a) : mapOption f l = mapOption g l := by
  induction l with
  | nil => rfl
  | cons a t ih =>
    rw [mapOption, mapOption, h a (List.mem_cons_self a t),
      ih fun x hx => h x (List.mem_cons_of_mem a hx)]

theorem mapOption_map {f : β → Option γ} {h : α → β} {l : List α} :
    mapOption f (l.map h) = mapOption (fun a => f (h a)) l := by
  induction l with
  | nil => rfl
  | cons a t ih => rw [List.map_cons, mapOption, mapOption, ih]

/-- Iterating `for i in range(len(l))` with `l[i]` visits exactly the
elements of `l`. -/
theorem mapOption_index (l : List α) (f : α → Option β) :
    mapOption (fun i => l[i]?.bind f) (List.range l.length) = mapOption f l := by
  induction l with
  | nil => rfl
  | cons a t ih =>
    have hrest : mapOption (fun i => (a :: t)[i]?.bind f)
        ((List.range t.length).map Nat.succ) = mapOption f t := by
      rw [mapOption_map,
        mapOption_congr fun i _ => by rw [List.getElem?_cons_succ], ih]
    rw [List.length_cons, List.range_succ_eq_map, mapOption, hrest]
    simp only [List.getElem?_cons_zero, Option.some_bind]
    cases hfa : f a <;> simp [mapOption, hfa]

theorem packPixel_eq_some {p : Int × Int × Int} (h : pixInByte p) :
    packPixel p = some (pix3 p) := by
  rw [packPixel, if_pos h]

theorem rowBytes_eq {row : List (Int × Int × Int)} {w : Nat}
    (hlen : row.length = w) (hb : ∀ p ∈ row, pixInByte p) :
    rowBytes row w = some (0 :: (row.map pix3).flatten) := by
  subst hlen
  rw [rowBytes, mapOption_index row packPixel,
    mapOption_eq_map fun p hp => packPixel_eq_some (hb p hp)]
  rfl

theorem buildRaw_eq {grid : List (List (Int × Int × Int))} {w : Nat} {h : Int}
    (hlen : grid.length = h.toNat)
    (hrows : ∀ row ∈ grid, rowBytes row w = some (0 :: (row.map pix3).flatten)) :
    buildRaw grid w h = some (pngSpecScanlines grid) := by
  rw [buildRaw, ← hlen,
    mapOption_index grid (fun row => rowBytes row w),
    mapOption_eq_map hrows]
  rfl

theorem write_chunk_eq {ctype data : List Nat} (h : data.length < 2 ^ 32) :
    write_chunk ctype data = some (pngSpecChunk ctype data) := by
  rw [write_chunk, packU32, if_pos h]; rfl

theorem ihdr_length (w hn : Nat) :
    (be32bytes w ++ be32bytes hn ++ [8, 2, 0, 0, 0]).length = 13 := by
  simp [be32bytes]

theorem save_png_eq {compress : List Nat → List Nat}
    {grid : List (List (Int × Int × Int))} {w : Nat} {h : Int} {raw : List Nat}
    (hw : w < 2 ^ 32) (h0 : 0 ≤ h) (hh : h < 2 ^ 32)
    (hraw : buildRaw grid w h = some raw)
    (hc : (compress raw).length < 2 ^ 32) :
    save_png compress grid w h = some (pngSignature ++
      pngSpecChunk chunkIHDR
        (be32bytes w ++ be32bytes h.toNat ++ [8, 2, 0, 0, 0]) ++
      pngSpecChunk chunkIDAT (compress raw) ++
      pngSpecChunk chunkIEND []) := by
  have hihdr : (be32bytes w ++ be32bytes h.toNat ++ [8, 2, 0, 0, 0]).length <
      2 ^ 32 := by
    rw [ihdr_length]; norm_num
  have hend : ([] : List Nat).length < 2 ^ 32 := by norm_num
  simp only [save_png, ihdrData, if_pos (And.intro hw (And.intro h0 hh)), hraw,
    write_chunk_eq hihdr, write_chunk_eq hc, write_chunk_eq hend]

/-! ## The pipeline always produces packable pixels -/

/-- Any delta that participated in the range discovery quantizes to a pixel
whose three channels fit in one byte (including on degenerate axes). -/
theorem pixel_in_byte {all : List (List Vec3)} {mm : MinMax}
    (hmm : find_min_max all = some mm) {ds : List Vec3} (hds : ds ∈ all)
    {d : Vec3} (hd : d ∈ ds) : pixInByte (pixelOfDelta mm d) := by
  obtain ⟨mm', h1, hb⟩ := find_min_max_bounds hds hd
  rw [hmm] at h1
  injection h1 with h1
  subst h1
  obtain ⟨b1, b2, b3, b4, b5, b6⟩ := hb
  have hx := remap_byte_range b1 b2
  have hy := remap_byte_range b3 b4
  have hz := remap_byte_range b5 b6
  simp only [pixInByte, pixelOfDelta]
  refine ⟨hx.1, ?_, hy.1, ?_, hz.1, ?_⟩ <;> omega

/-- Core of the success path: with consistent host reads, row assembly
over `[ts, fe]` succeeds and produces one row per frame in increasing
frame order, and the PNG serialization of that grid succeeds. -/
theorem assemble_and_save {P : Int → List Vec3} {N : Nat}
    (hlens : ∀ f, (P f).length = N) {fs fe : Int} (ts nf : Int)
    (hts : fs ≤ ts)
    {mm : MinMax}
    (hmm : find_min_max ((frameList fs fe).map fun f =>
      computeDeltas (P f) (P fs)) = some mm)
    (hcount : (fe + 1 - ts).toNat = nf.toNat)
    (h0 : 0 ≤ nf) (hnf : nf < 2 ^ 32) (hNlt : N < 2 ^ 32)
    {compress : List Nat → List Nat}
    (hclen : ∀ l, (compress l).length < 2 ^ 32) :
    buildImage ((frameList fs fe).map fun f =>
        (f, computeDeltas (P f) (P fs), ([] : List Vec3))) mm ts fe =
      some ((frameList ts fe).map fun f =>
        (computeDeltas (P f) (P fs)).map (pixelOfDelta mm)) ∧
    ∃ bytes, save_png compress ((frameList ts fe).map fun f =>
        (computeDeltas (P f) (P fs)).map (pixelOfDelta mm)) N nf =
      some bytes := by
  have hsub : ∀ f, f ∈ frameList ts fe → f ∈ frameList fs fe := by
    intro f hf
    obtain ⟨h1, h2⟩ := frameList_mem.1 hf
    exact frameList_mem.2 ⟨hts.trans h1, h2⟩
  have hrowlen : ∀ f, ((computeDeltas (P f) (P fs)).map
      (pixelOfDelta mm)).length = N := by
    intro f
    rw [List.length_map, computeDeltas_length, hlens, hlens, min_self]
  have hrows : ∀ row ∈ (frameList ts fe).map fun f =>
      (computeDeltas (P f) (P fs)).map (pixelOfDelta mm),
      rowBytes row N = some (0 :: (row.map pix3).flatten) := by
    intro row hrow
    obtain ⟨f, hf, rfl⟩ := List.mem_map.1 hrow
    refine rowBytes_eq (hrowlen f) ?_
    intro p hp
    obtain ⟨d, hd, rfl⟩ := List.mem_map.1 hp
    exact pixel_in_byte hmm
      (List.mem_map.2 ⟨f, hsub f hf, rfl⟩) hd
  constructor
  · rw [buildImage]
    refine mapOption_eq_map ?_
    intro f hf
    rw [dictLookup_map (g := fun x =>
      (computeDeltas (P x) (P fs), ([] : List Vec3))) (hsub f hf)]
    rfl
  · have hgl : ((frameList ts fe).map fun f =>
        (computeDeltas (P f) (P fs)).map (pixelOfDelta mm)).length =
        nf.toNat := by
      rw [List.length_map, frameList_length, hcount]
    have hbr := buildRaw_eq hgl hrows
    exact ⟨_, save_png_eq hNlt h0 hnf hbr (hclen _)⟩

/-! ## Characterization of a successful `encode_vat` run -/

/-- With the mesh present, every host read succeeding with a consistent
vertex count, and dimensions inside the 32-bit packing limits, `encode_vat`
(without normals or export) succeeds, restores the cursor, and its outputs
are exactly the sampled deltas over the full frame range, the discovered
global range, and the row-per-frame pixel grid starting at
`texture_start_frame`. -/
theorem encode_vat_run {sc : Scene} {P : Int → List Vec3} {ws : Bool}
    (hmesh : sc.meshExists = true)
    (hreads : ∀ f, sc.positionsAt f ws = some (P f))
    (hlens : ∀ f, (P f).length = sc.vertexCount)
    (hclen : ∀ l, (sc.compress l).length < 2 ^ 32)
    {fs fe : Int} (hfr : fs ≤ fe) {skip : Bool}
    (hskip : skip = true → fs < fe)
    (hVlt : sc.vertexCount < 2 ^ 32) (hFlt : fe - fs + 1 < 2 ^ 32)
    (force : Bool) (c0 : Int) {mm : MinMax}
    (hmm : find_min_max ((frameList fs fe).map fun f =>
      computeDeltas (P f) (P fs)) = some mm) :
    ∃ res : VatResult,
      encode_vat sc fs fe false false ws force skip c0 = (c0, .ok res) ∧
      res.width = sc.vertexCount ∧
      res.total_frames = fe - fs + 1 ∧
      res.num_frames = (if skip then fe - fs else fe - fs + 1) ∧
      res.texture_start_frame = (if skip then fs + 1 else fs) ∧
      res.all_deltas = (frameList fs fe).map
        (fun f => (f, computeDeltas (P f) (P fs), ([] : List Vec3))) ∧
      res.minmax = some mm ∧
      res.image_data = (frameList (if skip then fs + 1 else fs) fe).map
        fun f => (computeDeltas (P f) (P fs)).map (pixelOfDelta mm) := by
  have hV : 0 < sc.vertexCount := by
    rcases Nat.eq_zero_or_pos sc.vertexCount with h0 | h
    · exfalso
      have hnil : ∀ ps ∈ (frameList fs fe).map
          fun f => computeDeltas (P f) (P fs), ps = [] := by
        intro ps hps
        obtain ⟨f, _, rfl⟩ := List.mem_map.1 hps
        have hl := computeDeltas_length (P f) (P fs)
        rw [hlens, hlens, h0, min_self] at hl
        exact List.length_eq_zero.1 hl
      rw [find_min_max_all_nil hnil] at hmm
      exact Option.noConfusion hmm
    · exact h
  have hm1 : ¬ ¬ (sc.meshExists = true) := by simp [hmesh]
  have hVne : ¬ (sc.vertexCount = 0) := by omega
  have hsl := sampleLoop_total hreads (P fs) (frameList fs fe) fs
  have hmapped : (((frameList fs fe).map fun f =>
      (f, computeDeltas (P f) (P fs), ([] : List Vec3))).map
        fun e => e.2.1) =
      (frameList fs fe).map fun f => computeDeltas (P f) (P fs) := by
    rw [List.map_map]
    rfl
  cases skip with
  | false =>
    obtain ⟨hbi, bytes, hsp⟩ := assemble_and_save hlens fs (fe - fs + 1)
      (le_refl fs) hmm (by omega) (by omega) hFlt hVlt hclen
    have hval : ¬ ((false : Bool) = true ∧ fe - fs + 1 < 2) := by simp
    have hnfne : ¬ ((fe - fs + 1 : Int) = 0) := by omega
    by_cases huv : sc.uvSetPresent = true ∧ ¬ (force = true)
    · refine ⟨
        { width := sc.vertexCount
          total_frames := fe - fs + 1
          num_frames := fe - fs + 1
          texture_start_frame := fs
          all_deltas := (frameList fs fe).map fun f =>
            (f, computeDeltas (P f) (P fs), ([] : List Vec3))
          minmax := some mm
          image_data := (frameList fs fe).map fun f =>
            (computeDeltas (P f) (P fs)).map (pixelOfDelta mm)
          png := bytes
          normal_png := none
          uv_created := false
          uv_skipped := true
          uv_coords := []
          space_world := ws
          skipped_first := false }, ?_, rfl, rfl, rfl, rfl, rfl, rfl, rfl⟩
      simp only [encode_vat, hreads fs, hsl, hmapped, hmm,
        Option.getD_some, hbi, hsp, create_vat_uv, if_pos huv,
        if_neg hm1, Bool.false_eq_true, false_and, if_false]
    · refine ⟨
        { width := sc.vertexCount
          total_frames := fe - fs + 1
          num_frames := fe - fs + 1
          texture_start_frame := fs
          all_deltas := (frameList fs fe).map fun f =>
            (f, computeDeltas (P f) (P fs), ([] : List Vec3))
          minmax := some mm
          image_data := (frameList fs fe).map fun f =>
            (computeDeltas (P f) (P fs)).map (pixelOfDelta mm)
          png := bytes
          normal_png := none
          uv_created := true
          uv_skipped := false
          uv_coords := vat_uv_coords sc.vertexCount (fe - fs + 1)
          space_world := ws
          skipped_first := false }, ?_, rfl, rfl, rfl, rfl, rfl, rfl, rfl⟩
      simp only [encode_vat, hreads fs, hsl, hmapped, hmm,
        Option.getD_some, hbi, hsp, create_vat_uv, if_neg huv,
        if_neg hVne, if_neg hnfne, if_neg hm1, Bool.false_eq_true,
        false_and, if_false]
  | true =>
    have hlt : fs < fe := hskip rfl
    obtain ⟨hbi, bytes, hsp⟩ := assemble_and_save hlens (fs + 1) (fe - fs)
      (by omega) hmm (by omega) (by omega) (by omega) hVlt hclen
    have hval2 : ¬ ((fe - fs + 1 : Int) < 2) := by omega
    have hnfne : ¬ ((fe - fs + 1 - 1 : Int) = 0) := by omega
    by_cases huv : sc.uvSetPresent = true ∧ ¬ (force = true)
    · refine ⟨
        { width := sc.vertexCount
          total_frames := fe - fs + 1
          num_frames := fe - fs + 1 - 1
          texture_start_frame := fs + 1
          all_deltas := (frameList fs fe).map fun f =>
            (f, computeDeltas (P f) (P fs), ([] : List Vec3))
          minmax := some mm
          image_data := (frameList (fs + 1) fe).map fun f =>
            (computeDeltas (P f) (P fs)).map (pixelOfDelta mm)
          png := bytes
          normal_png := none
          uv_created := false
          uv_skipped := true
          uv_coords := []
          space_world := ws
          skipped_first := true }, ?_, rfl, rfl,
        (by norm_num : (fe - fs + 1 - 1 : Int) =
          if (true : Bool) = true then fe - fs else fe - fs + 1),
        rfl, rfl, rfl, rfl⟩
      have hsp' : save_png sc.compress ((frameList (fs + 1) fe).map fun f =>
          (computeDeltas (P f) (P fs)).map (pixelOfDelta mm))
          sc.vertexCount (fe - fs + 1 - 1) = some bytes := by
        have : (fe - fs + 1 - 1 : Int) = fe - fs := by omega
        rw [this]
        exact hsp
      simp only [encode_vat, hreads fs, hsl, hmapped, hmm,
        Option.getD_some, hbi, hsp', create_vat_uv, if_pos huv,
        if_neg hm1, if_neg hval2, eq_self_iff_true, true_and, if_true,
        Bool.false_eq_true, false_and, if_false]
    · refine ⟨
        { width := sc.vertexCount
          total_frames := fe - fs + 1
          num_frames := fe - fs + 1 - 1
          texture_start_frame := fs + 1
          all_deltas := (frameList fs fe).map fun f =>
            (f, computeDeltas (P f) (P fs), ([] : List Vec3))
          minmax := some mm
          image_data := (frameList (fs + 1) fe).map fun f =>
            (computeDeltas (P f) (P fs)).map (pixelOfDelta mm)
          png := bytes
          normal_png := none
          uv_created := true
          uv_skipped := false
          uv_coords := vat_uv_coords sc.vertexCount (fe - fs + 1 - 1)
          space_world := ws
          skipped_first := true }, ?_, rfl, rfl,
        (by norm_num : (fe - fs + 1 - 1 : Int) =
          if (true : Bool) = true then fe - fs else fe - fs + 1),
        rfl, rfl, rfl, rfl⟩
      have hsp' : save_png sc.compress ((frameList (fs + 1) fe).map fun f =>
          (computeDeltas (P f) (P fs)).map (pixelOfDelta mm))
          sc.vertexCount (fe - fs + 1 - 1) = some bytes := by
        have : (fe - fs + 1 - 1 : Int) = fe - fs := by omega
        rw [this]
        exact hsp
      simp only [encode_vat, hreads fs, hsl, hmapped, hmm,
        Option.getD_some, hbi, hsp', create_vat_uv, if_neg huv,
        if_neg hVne, if_neg hnfne, if_neg hm1, if_neg hval2,
        eq_self_iff_true, true_and, if_true, Bool.false_eq_true,
        false_and, if_false]

/-! ## Cursor behavior and validation ordering -/

/-- On every path that returns normally, the final `set_current_frame`
restores the entry cursor (the source restores only there — there is no
`try/finally`). -/
theorem encode_vat_cursor_on_success {sc : Scene} {fs fe : Int}
    {inc exp ws force skip : Bool} {c0 c : Int} {res : VatResult}
    (h : encode_vat sc fs fe inc exp ws force skip c0 = (c, Except.ok res)) :
    c = c0 := by
  unfold encode_vat at h
  simp only [] at h
  repeat' split at h
  all_goals (injection h with h1 h2; first | exact h1.symm | injection h2)

/-- A missing mesh fails validation immediately, before any cursor
mutation. -/
theorem encode_vat_mesh_missing {sc : Scene} (hm : sc.meshExists = false)
    (fs fe : Int) (inc exp ws force skip : Bool) (c0 : Int) :
    encode_vat sc fs fe inc exp ws force skip c0 =
      (c0, .error .meshNotFound) := by
  have h1 : ¬ (sc.meshExists = true) := by simp [hm]
  simp only [encode_vat, if_pos h1]

/-- Skip-first-frame with fewer than 2 total frames fails validation
before any cursor mutation. -/
theorem encode_vat_skip_validation {sc : Scene} (hm : sc.meshExists = true)
    {fs fe : Int} (htot : fe - fs + 1 < 2) (inc exp ws force : Bool)
    (c0 : Int) :
    encode_vat sc fs fe inc exp ws force true c0 =
      (c0, .error .skipTooFewFrames) := by
  have h1 : ¬ ¬ (sc.meshExists = true) := by simp [hm]
  have h2 : ((true : Bool) = true ∧ fe - fs + 1 < 2) := ⟨rfl, htot⟩
  simp only [encode_vat, if_neg h1, if_pos h2, eq_self_iff_true, true_and,
    if_pos htot]

/-- A resolvable mesh with an empty vertex set is *not* rejected during
validation: the run samples every frame, writes the (zero-width) texture,
and only then dies with the UV planner's division by zero — with the
cursor left where the sampling loop put it, not restored. -/
theorem encode_vat_zero_vertices {sc : Scene} (hm : sc.meshExists = true)
    (hreads : ∀ f b, sc.positionsAt f b = some [])
    (hV : sc.vertexCount = 0) (huvp : sc.uvSetPresent = false)
    {fs fe : Int} (hfr : fs ≤ fe) (hFlt : fe - fs + 1 < 2 ^ 32)
    (hclen : ∀ l, (sc.compress l).length < 2 ^ 32)
    (exp ws force : Bool) (c0 : Int) :
    encode_vat sc fs fe false exp ws force false c0 =
      (lastD fs (frameList fs fe), .error .uvZeroDivision) := by
  have hm1 : ¬ ¬ (sc.meshExists = true) := by simp [hm]
  have hsl := @sampleLoop_total sc ws (fun _ => ([] : List Vec3))
    (fun f => hreads f ws) [] (frameList fs fe) fs
  simp only [computeDeltas, List.zipWith_nil_left] at hsl
  have hfmm : find_min_max (((frameList fs fe).map fun f =>
      ((f : Int), ([] : List Vec3), ([] : List Vec3))).map fun e => e.2.1) =
      none := by
    refine find_min_max_all_nil ?_
    intro ps hps
    obtain ⟨e, he, rfl⟩ := List.mem_map.1 hps
    obtain ⟨f, _, rfl⟩ := List.mem_map.1 he
    rfl
  have hbi : buildImage ((frameList fs fe).map fun f =>
      ((f : Int), ([] : List Vec3), ([] : List Vec3)))
      ⟨0, 0, 0, 0, 0, 0⟩ fs fe =
      some ((frameList fs fe).map fun _ =>
        ([] : List (Int × Int × Int))) := by
    rw [buildImage]
    refine mapOption_eq_map ?_
    intro f hf
    rw [dictLookup_map (g := fun _ =>
      (([] : List Vec3), ([] : List Vec3))) hf]
    rfl
  have hrows : ∀ row ∈ (frameList fs fe).map fun _ =>
      ([] : List (Int × Int × Int)),
      rowBytes row 0 = some (0 :: (row.map pix3).flatten) := by
    intro row hrow
    obtain ⟨f, _, rfl⟩ := List.mem_map.1 hrow
    exact rowBytes_eq rfl (by intro p hp; cases hp)
  have hgl : ((frameList fs fe).map fun _ =>
      ([] : List (Int × Int × Int))).length = (fe - fs + 1).toNat := by
    rw [List.length_map, frameList_length]
    omega
  have hbr := buildRaw_eq hgl hrows
  have hsp := @save_png_eq sc.compress _ 0 (fe - fs + 1) _ (by norm_num)
    (by omega : (0 : Int) ≤ fe - fs + 1) hFlt hbr (hclen _)
  have huv : ¬ (sc.uvSetPresent = true ∧ ¬ (force = true)) := by
    simp [huvp]
  simp only [encode_vat, if_neg hm1, hreads fs ws, hsl, hfmm,
    Option.getD_none, hbi, hV, hsp, create_vat_uv, if_neg huv,
    eq_self_iff_true, if_true, Bool.false_eq_true, false_and, if_false]

/-! ## Inversion helpers and decode bound -/

theorem mapOption_mem_inv {f : α → Option β} {l : List α} {bs : List β}
    (h : mapOption f l = some bs) : ∀ b ∈ bs, ∃ a, a ∈ l ∧ f a = some b := by
  induction l generalizing bs with
  | nil =>
    cases h
    intro b hb
    cases hb
  | cons a t ih =>
    rw [mapOption] at h
    cases hfa : f a with
    | none => rw [hfa] at h; cases h
    | some b0 =>
      rw [hfa] at h
      cases hmt : mapOption f t with
      | none => rw [hmt] at h; cases h
      | some bs0 =>
        rw [hmt] at h
        injection h with h
        subst h
        intro b hb
        rcases List.mem_cons.1 hb with rfl | hb'
        · exact ⟨a, List.mem_cons_self a t, hfa⟩
        · obtain ⟨a', ha', hfa'⟩ := ih hmt b hb'
          exact ⟨a', List.mem_cons_of_mem a ha', hfa'⟩

theorem dictLookup_mem {l : List (Int × α)} {k : Int} {v : α}
    (h : dictLookup k l = some v) : (k, v) ∈ l := by
  induction l with
  | nil => cases h
  | cons e t ih =>
    obtain ⟨k', v'⟩ := e
    rw [dictLookup] at h
    by_cases hk : k = k'
    · rw [if_pos hk] at h
      injection h with h
      subst hk
      subst h
      exact List.mem_cons_self _ _
    · rw [if_neg hk] at h
      exact List.mem_cons_of_mem _ (ih h)

/-- Decoding the pixel quantized from the zero delta recovers zero to
within the per-axis quantization step (exactly zero when the axis is
degenerate). -/
theorem decode_zero_bound {lo hi : Rat} (h1 : lo ≤ 0) (h2 : 0 ≤ hi) :
    |lo + ((remap_value 0 lo hi 0 255 : Rat)) / 255 * (hi - lo)| ≤
      (hi - lo) / 255 := by
  rcases eq_or_lt_of_le (h1.trans h2) with he | hlt
  · have hlo : lo = 0 := le_antisymm h1 (he ▸ h2)
    have hhi : hi = 0 := by rw [← he]; exact hlo
    rw [hlo, hhi]
    norm_num
  · have := remap_roundtrip_bound hlt h1 h2
    simpa using this

/-! ## The claims -/

/-- C3: `remap_value(value, old_min, old_max, new_min, new_max)` returns
`new_min` whenever `old_max == old_min`, and otherwise the toward-zero
truncation (floor of a nonnegative value, ceiling of a negative one) of
`new_min + ((value - old_min) / (old_max - old_min)) * (new_max -
new_min)`; being total, it never divides by zero. -/
theorem claim_C3 : ∀ (v omin omax : Rat) (nmin nmax : Int),
    (omax = omin → remap_value v omin omax nmin nmax = nmin) ∧
    (omax ≠ omin →
      remap_value v omin omax nmin nmax =
        (if 0 ≤ (nmin : Rat) + (v - omin) / (omax - omin) *
            ((nmax : Rat) - (nmin : Rat))
         then ⌊(nmin : Rat) + (v - omin) / (omax - omin) *
            ((nmax : Rat) - (nmin : Rat))⌋
         else ⌈(nmin : Rat) + (v - omin) / (omax - omin) *
            ((nmax : Rat) - (nmin : Rat))⌉)) := by
  intro v omin omax nmin nmax
  constructor
  · intro h
    simp [remap_value, h]
  · intro h
    simp [remap_value, truncInt, h]

theorem claim_C3_witness :
    remap_value 1 2 2 5 7 = 5 ∧ remap_value 1 0 2 0 255 = 127 := by
  constructor
  · exact (claim_C3 1 2 2 5 7).1 rfl
  · have h := (claim_C3 1 0 2 0 255).2 (by norm_num)
    rw [h]
    norm_num

/-- C4: for `min < max` and `min ≤ v ≤ max`, decoding the quantized pixel
with `min + (pixel / 255) * (max - min)` recovers `v` to within
`(max - min) / 255`; when `max == min`, `remap_value` returns the low end
`0` for every `v`. -/
theorem claim_C4 : ∀ (v lo hi : Rat),
    (lo < hi → lo ≤ v → v ≤ hi →
      |lo + ((remap_value v lo hi 0 255 : Int) : Rat) / 255 * (hi - lo) - v| ≤
        (hi - lo) / 255) ∧
    (hi = lo → remap_value v lo hi 0 255 = 0) := by
  intro v lo hi
  constructor
  · intro h1 h2 h3
    exact remap_roundtrip_bound h1 h2 h3
  · intro h
    simp [remap_value, h]

theorem claim_C4_witness :
    |(0 : Rat) + ((remap_value 1 0 2 0 255 : Int) : Rat) / 255 * (2 - 0) - 1| ≤
      ((2 : Rat) - 0) / 255 ∧ remap_value 1 2 2 0 255 = 0 :=
  ⟨(claim_C4 1 0 2).1 (by norm_num) (by norm_num) (by norm_num),
   (claim_C4 1 2 2).2 rfl⟩

/-- C5: for a grid of `height ≥ 1` rows of `width ≥ 1` byte pixels each,
`save_png` emits exactly: the 8-byte PNG signature; an IHDR chunk with the
given width and height, bit depth 8, color type 2, compression 0, filter
0, interlace 0; one IDAT chunk holding the compression of the scanline
stream (one `0x00` filter byte then 3 bytes per pixel, top row first); and
an empty IEND chunk — each chunk serialized as 4-byte big-endian payload
length, type tag, payload, 4-byte big-endian CRC-32 over tag ++ payload.
(The hypothesis on `compress` records that the compressed stream fits the
32-bit length field, as any real `zlib` output here does.) -/
theorem claim_C5 (compress : List Nat → List Nat)
    (grid : List (List (Int × Int × Int))) (w h : Nat)
    (hw1 : 1 ≤ w) (hh1 : 1 ≤ h) (hw : w < 2 ^ 32) (hh : h < 2 ^ 32)
    (hlen : grid.length = h) (hrowlen : ∀ row ∈ grid, row.length = w)
    (hpix : ∀ row ∈ grid, ∀ p ∈ row, pixInByte p)
    (hc : (compress (pngSpecScanlines grid)).length < 2 ^ 32) :
    save_png compress grid w (h : Int) =
      some (pngSpecStream compress grid w h) := by
  have hcast : ((h : Int)).toNat = h := rfl
  have hrows : ∀ row ∈ grid,
      rowBytes row w = some (0 :: (row.map pix3).flatten) :=
    fun row hr => rowBytes_eq (hrowlen row hr) (hpix row hr)
  have hg : grid.length = ((h : Int)).toNat := by rw [hlen, hcast]
  have hbr := buildRaw_eq hg hrows
  have hsp := save_png_eq hw (by exact_mod_cast Nat.zero_le h)
    (by exact_mod_cast hh) hbr hc
  rw [hsp, pngSpecStream, hcast]

theorem claim_C5_witness :
    save_png (fun l => l) [[(1, 2, 3)]] 1 ((1 : Nat) : Int) =
      some (pngSpecStream (fun l => l) [[(1, 2, 3)]] 1 1) :=
  claim_C5 (fun l => l) [[(1, 2, 3)]] 1 1 (by norm_num) (by norm_num)
    (by norm_num) (by norm_num) rfl (by decide) (by decide) (by decide)

/-- C6: the UV layout gives vertex `i` the coordinates
`u = (i + 0.5) * (1 / V)` and `v = 0.5 * (1 / F)`; the `V` u-values are
strictly increasing, spaced exactly `1 / V` apart, all strictly inside
`(0, 1)` (hence vertex index to u-coordinate is injective), and the
v-coordinate is the same for every vertex. -/
theorem claim_C6 : ∀ (V : Nat) (F : Int), 1 ≤ V → 1 ≤ F →
    (vat_uv_coords V F).length = V ∧
    (∀ i : Nat, i < V → (vat_uv_coords V F)[i]? =
      some (((i : Rat) + 1 / 2) * (1 / (V : Rat)),
        (1 / 2) * (1 / (F : Rat)))) ∧
    (∀ i j : Nat, i < j → j < V →
      ((i : Rat) + 1 / 2) * (1 / (V : Rat)) <
        ((j : Rat) + 1 / 2) * (1 / (V : Rat))) ∧
    (∀ i : Nat, i + 1 < V →
      (((i : Rat) + 1) + 1 / 2) * (1 / (V : Rat)) -
        ((i : Rat) + 1 / 2) * (1 / (V : Rat)) = 1 / (V : Rat)) ∧
    (∀ i : Nat, i < V → 0 < ((i : Rat) + 1 / 2) * (1 / (V : Rat)) ∧
      ((i : Rat) + 1 / 2) * (1 / (V : Rat)) < 1) ∧
    (∀ i j : Nat, i < V → j < V →
      ((i : Rat) + 1 / 2) * (1 / (V : Rat)) =
        ((j : Rat) + 1 / 2) * (1 / (V : Rat)) → i = j) ∧
    (∀ p ∈ vat_uv_coords V F, p.2 = (1 / 2) * (1 / (F : Rat))) := by
  intro V F hV hF
  have hV0 : (0 : Rat) < (V : Rat) := by exact_mod_cast hV
  have hV0' : (0 : Rat) < 1 / (V : Rat) := by positivity
  refine ⟨?_, ?_, ?_, ?_, ?_, ?_, ?_⟩
  · rw [vat_uv_coords, List.length_map, List.length_range]
  · intro i hi
    rw [vat_uv_coords, List.getElem?_map, List.getElem?_range hi]
    rfl
  · intro i j hij hj
    have : (i : Rat) + 1 / 2 < (j : Rat) + 1 / 2 := by
      have : (i : Rat) < (j : Rat) := by exact_mod_cast hij
      linarith
    exact mul_lt_mul_of_pos_right this hV0'
  · intro i hi
    ring
  · intro i hi
    constructor
    · positivity
    · have h1 : (i : Rat) + 1 ≤ (V : Rat) := by exact_mod_cast hi
      rw [mul_one_div, div_lt_one hV0]
      linarith
  · intro i j hi hj hu
    have := mul_right_cancel₀ (ne_of_gt hV0') hu
    have : (i : Rat) = (j : Rat) := by linarith
    exact_mod_cast this
  · intro p hp
    obtain ⟨i, _, rfl⟩ := List.mem_map.1 hp
    rfl

theorem claim_C6_witness :
    (vat_uv_coords 2 3).length = 2 ∧
    (vat_uv_coords 2 3)[0]? =
      some (((0 : Rat) + 1 / 2) * (1 / ((2 : Nat) : Rat)),
        (1 / 2) * (1 / ((3 : Int) : Rat))) := by
  have h := claim_C6 2 3 (by norm_num) (by norm_num)
  exact ⟨h.1, h.2.1 0 (by norm_num)⟩

/-- C10: for `old_min < old_max` and `old_min ≤ v ≤ old_max`, the
remapped pixel value is in `[0, 255]` with the endpoints mapped exactly to
`0` and `255`; consequently every pixel of the assembled position grid
(quantized against the range discovered over the same deltas) fits one
byte per channel, and the per-pixel byte packing of the raw scanline
stream in `save_png` always succeeds. -/
theorem claim_C10 :
    (∀ (v lo hi : Rat), lo < hi → lo ≤ v → v ≤ hi →
      (0 ≤ remap_value v lo hi 0 255 ∧ remap_value v lo hi 0 255 ≤ 255) ∧
      remap_value lo lo hi 0 255 = 0 ∧ remap_value hi lo hi 0 255 = 255) ∧
    (∀ (all : List (Int × List Vec3 × List Vec3)) (mm : MinMax)
      (ts fe : Int) (grid : List (List (Int × Int × Int))),
      find_min_max (all.map fun e => e.2.1) = some mm →
      buildImage all mm ts fe = some grid →
      (∀ row ∈ grid, ∀ p ∈ row, pixInByte p) ∧
      ∀ (w : Nat) (h : Int), (∀ row ∈ grid, row.length = w) →
        grid.length = h.toNat → ∃ raw, buildRaw grid w h = some raw) := by
  constructor
  · intro v lo hi hlt h1 h2
    exact ⟨remap_byte_range h1 h2, remap_value_at_lo hlt,
      remap_value_at_hi hlt⟩
  · intro all mm ts fe grid hmm hbi
    rw [buildImage] at hbi
    have hpix : ∀ row ∈ grid, ∀ p ∈ row, pixInByte p := by
      intro row hrow p hp
      obtain ⟨f, hf, hfeq⟩ := mapOption_mem_inv hbi row hrow
      cases hdl : dictLookup f all with
      | none => rw [hdl] at hfeq; cases hfeq
      | some e =>
        rw [hdl] at hfeq
        injection hfeq with hfeq
        subst hfeq
        obtain ⟨d, hd, rfl⟩ := List.mem_map.1 hp
        exact pixel_in_byte hmm
          (List.mem_map.2 ⟨(f, e), dictLookup_mem hdl, rfl⟩) hd
    refine ⟨hpix, ?_⟩
    intro w h hrl hgl
    have hrows : ∀ row ∈ grid,
        rowBytes row w = some (0 :: (row.map pix3).flatten) :=
      fun row hr => rowBytes_eq (hrl row hr) (hpix row hr)
    exact ⟨_, buildRaw_eq hgl hrows⟩

theorem claim_C10_witness :
    ((0 ≤ remap_value 1 0 2 0 255 ∧ remap_value 1 0 2 0 255 ≤ 255) ∧
      remap_value 0 0 2 0 255 = 0 ∧ remap_value 2 0 2 0 255 = 255) ∧
    (∀ row ∈ [[((0 : Int), (0 : Int), (0 : Int))]], ∀ p ∈ row,
      pixInByte p) :=
  ⟨claim_C10.1 1 0 2 (by norm_num) (by norm_num) (by norm_num),
   (claim_C10.2 [(0, [((0 : Rat), (0 : Rat), (0 : Rat))], [])]
     ⟨0, 0, 0, 0, 0, 0⟩ 0 0 [[(0, 0, 0)]] (by decide) (by decide)).1⟩

/-- C1 (counterexample): a run that reaches the sampling phase (the proxy
read and the frame-0 sample succeed) and then fails reading frame 1
propagates the exception with the cursor left at frame 1, not restored to
the entry cursor 99 — the source has no `try/finally`. -/
theorem claim_C1_counterexample :
    encode_vat readFailScene 0 1 false false true false false 99 =
      (1, .error (.hostRead 1)) ∧ (1 : Int) ≠ 99 := by
  constructor
  · decide
  · decide

/-- C1 (amended): the host cursor is restored to its entry value on the
success path (only); any exception during steps 4–9 propagates with the
cursor left wherever the failing step put it. -/
theorem claim_C1_amended (sc : Scene) (fs fe : Int)
    (inc exp ws force skip : Bool) (c0 : Int)
    (h : exceptIsOk (encode_vat sc fs fe inc exp ws force skip c0).2 =
      true) :
    (encode_vat sc fs fe inc exp ws force skip c0).1 = c0 := by
  rcases hE : encode_vat sc fs fe inc exp ws force skip c0 with ⟨c, r⟩
  cases r with
  | error e =>
    rw [hE] at h
    exact absurd h (by simp [exceptIsOk])
  | ok res => exact encode_vat_cursor_on_success hE

/-- C9 (counterexample): a mesh that resolves but has zero vertices is not
rejected during validation; the run mutates the cursor (it ends at frame
0, not at the entry cursor 99) and fails with the UV planner's division by
zero, after sampling and texture writing. -/
theorem claim_C9_counterexample :
    encode_vat emptyScene 0 0 false false true false false 99 =
      (0, .error .uvZeroDivision) ∧ (0 : Int) ≠ 99 := by
  constructor
  · decide
  · decide

/-- C9 (amended): a nonexistent mesh and skip-first-frame with fewer than
2 total frames do fail during validation, before any cursor mutation; an
empty (zero-vertex) mesh instead passes validation, is sampled over the
whole range, and the run fails only at the UV-planner step with a
division-by-zero error, the cursor being left at the last sampled frame. -/
theorem claim_C9_amended : ∀ (sc : Scene) (fs fe : Int)
    (inc exp ws force skip : Bool) (c0 : Int),
    (sc.meshExists = false →
      encode_vat sc fs fe inc exp ws force skip c0 =
        (c0, .error .meshNotFound)) ∧
    (sc.meshExists = true → fe - fs + 1 < 2 →
      encode_vat sc fs fe inc exp ws force true c0 =
        (c0, .error .skipTooFewFrames)) ∧
    (sc.meshExists = true → (∀ f b, sc.positionsAt f b = some []) →
      sc.vertexCount = 0 → sc.uvSetPresent = false → fs ≤ fe →
      fe - fs + 1 < 2 ^ 32 → (∀ l, (sc.compress l).length < 2 ^ 32) →
      encode_vat sc fs fe false exp ws force false c0 =
        (lastD fs (frameList fs fe), .error .uvZeroDivision)) := by
  intro sc fs fe inc exp ws force skip c0
  refine ⟨fun h => encode_vat_mesh_missing h fs fe inc exp ws force skip c0,
    fun h1 h2 => encode_vat_skip_validation h1 h2 inc exp ws force c0,
    fun h1 h2 h3 h4 h5 h6 h7 =>
      encode_vat_zero_vertices h1 h2 h3 h4 h5 h6 h7 exp ws force c0⟩

theorem claim_C9_witness :
    encode_vat emptyScene 0 5 false false true false false 99 =
      (lastD 0 (frameList 0 5), .error .uvZeroDivision) ∧
    lastD 0 (frameList 0 5) = 5 := by
  refine ⟨(claim_C9_amended emptyScene 0 5 false false true false
    false 99).2.2 rfl (fun f b => rfl) rfl rfl (by norm_num) (by norm_num)
    (fun l => by show (0 : Nat) < 2 ^ 32; norm_num), by decide⟩

/-- C2: with `skip_first_frame` and `frame_end > frame_start`, delta
frames are computed for every frame of `[frame_start, frame_end]`
inclusive; the global per-axis range is the `find_min_max` of all of those
delta frames including the excluded first one, whose delta is all zeros —
so each axis's global range contains 0. -/
theorem claim_C2 {sc : Scene} {P : Int → List Vec3} {ws : Bool}
    (hmesh : sc.meshExists = true)
    (hreads : ∀ f, sc.positionsAt f ws = some (P f))
    (hlens : ∀ f, (P f).length = sc.vertexCount)
    (hclen : ∀ l, (sc.compress l).length < 2 ^ 32)
    {fs fe : Int} (hlt : fs < fe)
    (hV : 0 < sc.vertexCount) (hVlt : sc.vertexCount < 2 ^ 32)
    (hFlt : fe - fs + 1 < 2 ^ 32) (force : Bool) (c0 : Int) :
    ∃ (mm : MinMax) (res : VatResult),
      encode_vat sc fs fe false false ws force true c0 = (c0, .ok res) ∧
      res.all_deltas = (frameList fs fe).map
        (fun f => (f, computeDeltas (P f) (P fs), ([] : List Vec3))) ∧
      dictLookup fs res.all_deltas =
        some (List.replicate sc.vertexCount ((0 : Rat), (0 : Rat), (0 : Rat)),
          ([] : List Vec3)) ∧
      res.minmax = find_min_max (res.all_deltas.map fun e => e.2.1) ∧
      res.minmax = some mm ∧
      mm.min_x ≤ 0 ∧ 0 ≤ mm.max_x ∧ mm.min_y ≤ 0 ∧ 0 ≤ mm.max_y ∧
      mm.min_z ≤ 0 ∧ 0 ≤ mm.max_z := by
  have hzero : computeDeltas (P fs) (P fs) =
      List.replicate sc.vertexCount ((0 : Rat), (0 : Rat), (0 : Rat)) := by
    rw [computeDeltas_self, hlens]
  have hmem0 : ((0 : Rat), (0 : Rat), (0 : Rat)) ∈
      computeDeltas (P fs) (P fs) := by
    rw [hzero]
    exact List.mem_replicate.2 ⟨by omega, rfl⟩
  have hps : computeDeltas (P fs) (P fs) ∈
      (frameList fs fe).map fun f => computeDeltas (P f) (P fs) :=
    List.mem_map.2 ⟨fs, frameList_mem.2 ⟨le_refl fs, by omega⟩, rfl⟩
  obtain ⟨mm, hmm, hb⟩ := find_min_max_bounds hps hmem0
  obtain ⟨b1, b2, b3, b4, b5, b6⟩ := hb
  obtain ⟨res, henc, hw, ht, hn, hts, hdel, hmmres, himg⟩ :=
    encode_vat_run hmesh hreads hlens hclen (le_of_lt hlt) (fun _ => hlt)
      hVlt hFlt force c0 hmm
  have hdl : dictLookup fs res.all_deltas =
      some (computeDeltas (P fs) (P fs), ([] : List Vec3)) := by
    rw [hdel]
    exact dictLookup_map (g := fun f =>
      (computeDeltas (P f) (P fs), ([] : List Vec3)))
      (frameList_mem.2 ⟨le_refl fs, by omega⟩)
  rw [hzero] at hdl
  have hfm : res.minmax = find_min_max (res.all_deltas.map fun e => e.2.1) := by
    rw [hmmres, hdel, List.map_map]
    exact hmm.symm
  exact ⟨mm, res, henc, hdel, hdl, hfm, hmmres, b1, b2, b3, b4, b5, b6⟩

theorem claim_C2_witness :
    ∃ (mm : MinMax) (res : VatResult),
      encode_vat constScene 0 1 false false true false true 99 =
        (99, .ok res) ∧
      res.minmax = some mm ∧ mm.min_x ≤ 0 ∧ 0 ≤ mm.max_x := by
  obtain ⟨mm, res, henc, hdel, hdl, hfm, hsome, b1, b2, b3, b4, b5, b6⟩ :=
    @claim_C2 constScene (fun _ => [((0 : Rat), (0 : Rat), (0 : Rat))])
      true rfl (fun f => rfl) (fun f => rfl)
      (fun l => by show (0 : Nat) < 2 ^ 32; norm_num)
      0 1 (by decide) (by decide) (by decide) (by decide) false 99
  exact ⟨mm, res, henc, hsome, b1, b2⟩

theorem claim_C1_witness :
    exceptIsOk (encode_vat constScene 0 1 false false true false false
      99).2 = true ∧
    (encode_vat constScene 0 1 false false true false false 99).1 = 99 := by
  have hfl : frameList 0 1 = [0, 1] := by decide
  have hmm : find_min_max ((frameList 0 1).map fun f =>
      computeDeltas ((fun _ : Int => [((0 : Rat), (0 : Rat), (0 : Rat))]) f)
        ((fun _ : Int => [((0 : Rat), (0 : Rat), (0 : Rat))]) 0)) =
      some ⟨0, 0, 0, 0, 0, 0⟩ := by
    rw [hfl]
    norm_num [computeDeltas, find_min_max, mmUpdate, List.zipWith_cons_cons,
      min_self, max_self]
  obtain ⟨res, henc, -, -, -, -, -, -, -⟩ :=
    @encode_vat_run constScene (fun _ => [((0 : Rat), (0 : Rat), (0 : Rat))])
      true rfl (fun f => rfl) (fun f => rfl)
      (fun l => by show (0 : Nat) < 2 ^ 32; norm_num)
      0 1 (by decide) false (by decide) (by decide) (by decide)
      false 99 _ hmm
  have hOk : exceptIsOk (encode_vat constScene 0 1 false false true false
      false 99).2 = true := by
    rw [henc]
    rfl
  exact ⟨hOk, claim_C1_amended constScene 0 1 false false true false false
    99 hOk⟩

/-- C7: `total_frames = frame_end - frame_start + 1`; `num_frames` and
`texture_start_frame` are adjusted by one exactly when skipping the first
frame; the assembled position grid has exactly `num_frames` rows of
exactly vertex-count pixels each, with row `k` holding the quantized
deltas of frame `texture_start_frame + k` in a fixed vertex order. -/
theorem claim_C7 {sc : Scene} {P : Int → List Vec3} {ws : Bool}
    (hmesh : sc.meshExists = true)
    (hreads : ∀ f, sc.positionsAt f ws = some (P f))
    (hlens : ∀ f, (P f).length = sc.vertexCount)
    (hclen : ∀ l, (sc.compress l).length < 2 ^ 32)
    {fs fe : Int} (hfr : fs ≤ fe) {skip : Bool}
    (hskip : skip = true → fs < fe)
    (hV : 0 < sc.vertexCount) (hVlt : sc.vertexCount < 2 ^ 32)
    (hFlt : fe - fs + 1 < 2 ^ 32) (force : Bool) (c0 : Int) :
    ∃ (mm : MinMax) (res : VatResult),
      encode_vat sc fs fe false false ws force skip c0 = (c0, .ok res) ∧
      res.total_frames = fe - fs + 1 ∧
      res.num_frames =
        (if skip then res.total_frames - 1 else res.total_frames) ∧
      res.texture_start_frame = (if skip then fs + 1 else fs) ∧
      res.image_data.length = res.num_frames.toNat ∧
      (∀ row ∈ res.image_data, row.length = sc.vertexCount) ∧
      (∀ k : Nat, k < res.num_frames.toNat →
        res.image_data[k]? = some ((computeDeltas
          (P (res.texture_start_frame + (k : Int))) (P fs)).map
          (pixelOfDelta mm))) := by
  have hzero : computeDeltas (P fs) (P fs) =
      List.replicate sc.vertexCount ((0 : Rat), (0 : Rat), (0 : Rat)) := by
    rw [computeDeltas_self, hlens]
  have hmem0 : ((0 : Rat), (0 : Rat), (0 : Rat)) ∈
      computeDeltas (P fs) (P fs) := by
    rw [hzero]
    exact List.mem_replicate.2 ⟨by omega, rfl⟩
  have hps : computeDeltas (P fs) (P fs) ∈
      (frameList fs fe).map fun f => computeDeltas (P f) (P fs) :=
    List.mem_map.2 ⟨fs, frameList_mem.2 ⟨le_refl fs, hfr⟩, rfl⟩
  obtain ⟨mm, hmm, -⟩ := find_min_max_bounds hps hmem0
  obtain ⟨res, henc, hw, ht, hn, hts, hdel, hmmres, himg⟩ :=
    encode_vat_run hmesh hreads hlens hclen hfr hskip hVlt hFlt force c0 hmm
  have hts' : (if skip then fs + 1 else fs) =
      res.texture_start_frame := hts.symm
  refine ⟨mm, res, henc, ht, ?_, hts, ?_, ?_, ?_⟩
  · rw [hn, ht]
    cases skip <;> simp <;> omega
  · rw [himg, List.length_map, frameList_length, hn]
    cases skip <;> simp <;> omega
  · intro row hrow
    rw [himg] at hrow
    obtain ⟨f, hf, rfl⟩ := List.mem_map.1 hrow
    rw [List.length_map, computeDeltas_length, hlens, hlens, min_self]
  · intro k hk
    have hk' : k < (fe + 1 - (if skip then fs + 1 else fs)).toNat := by
      rw [hn] at hk
      cases skip <;> simp at hk ⊢ <;> omega
    rw [himg, List.getElem?_map, frameList_getElem? _ _ k hk', hts]
    rfl

theorem claim_C7_witness :
    ∃ (mm : MinMax) (res : VatResult),
      encode_vat constScene 0 1 false false true false false 99 =
        (99, .ok res) ∧
      res.total_frames = 1 - 0 + 1 ∧
      res.num_frames = (if false then res.total_frames - 1
        else res.total_frames) ∧
      res.texture_start_frame = (if false then (0 : Int) + 1 else 0) ∧
      res.image_data.length = res.num_frames.toNat ∧
      (∀ row ∈ res.image_data, row.length = constScene.vertexCount) ∧
      (∀ k : Nat, k < res.num_frames.toNat →
        res.image_data[k]? = some ((computeDeltas
          ((fun _ : Int => [((0 : Rat), (0 : Rat), (0 : Rat))])
            (res.texture_start_frame + (k : Int)))
          ((fun _ : Int => [((0 : Rat), (0 : Rat), (0 : Rat))]) 0)).map
          (pixelOfDelta mm))) :=
  @claim_C7 constScene (fun _ => [((0 : Rat), (0 : Rat), (0 : Rat))])
    true rfl (fun f => rfl) (fun f => rfl)
    (fun l => by show (0 : Nat) < 2 ^ 32; norm_num)
    0 1 (by decide) false (by decide) (by decide) (by decide) (by decide)
    false 99

/-- C8 (amended): with `skip_first_frame` false, the delta computed for
`frame_start` is exactly zero for every vertex, so every pixel of row 0
equals `(remap_value(0, min_x, max_x, 0, 255), …)` per axis — but that row
decodes to the proxy position only to within the per-axis quantization
step `(max - min) / 255`, not exactly. -/
theorem claim_C8_amended {sc : Scene} {P : Int → List Vec3} {ws : Bool}
    (hmesh : sc.meshExists = true)
    (hreads : ∀ f, sc.positionsAt f ws = some (P f))
    (hlens : ∀ f, (P f).length = sc.vertexCount)
    (hclen : ∀ l, (sc.compress l).length < 2 ^ 32)
    {fs fe : Int} (hfr : fs ≤ fe)
    (hV : 0 < sc.vertexCount) (hVlt : sc.vertexCount < 2 ^ 32)
    (hFlt : fe - fs + 1 < 2 ^ 32) (force : Bool) (c0 : Int) :
    ∃ (mm : MinMax) (res : VatResult),
      encode_vat sc fs fe false false ws force false c0 = (c0, .ok res) ∧
      res.minmax = some mm ∧
      dictLookup fs res.all_deltas =
        some (List.replicate sc.vertexCount ((0 : Rat), (0 : Rat), (0 : Rat)),
          ([] : List Vec3)) ∧
      res.image_data[0]? = some (List.replicate sc.vertexCount
        (pixelOfDelta mm ((0 : Rat), (0 : Rat), (0 : Rat)))) ∧
      pixelOfDelta mm ((0 : Rat), (0 : Rat), (0 : Rat)) =
        (remap_value 0 mm.min_x mm.max_x 0 255,
         remap_value 0 mm.min_y mm.max_y 0 255,
         remap_value 0 mm.min_z mm.max_z 0 255) ∧
      |mm.min_x + ((remap_value 0 mm.min_x mm.max_x 0 255 : Int) : Rat) /
        255 * (mm.max_x - mm.min_x)| ≤ (mm.max_x - mm.min_x) / 255 ∧
      |mm.min_y + ((remap_value 0 mm.min_y mm.max_y 0 255 : Int) : Rat) /
        255 * (mm.max_y - mm.min_y)| ≤ (mm.max_y - mm.min_y) / 255 ∧
      |mm.min_z + ((remap_value 0 mm.min_z mm.max_z 0 255 : Int) : Rat) /
        255 * (mm.max_z - mm.min_z)| ≤ (mm.max_z - mm.min_z) / 255 := by
  have hzero : computeDeltas (P fs) (P fs) =
      List.replicate sc.vertexCount ((0 : Rat), (0 : Rat), (0 : Rat)) := by
    rw [computeDeltas_self, hlens]
  have hmem0 : ((0 : Rat), (0 : Rat), (0 : Rat)) ∈
      computeDeltas (P fs) (P fs) := by
    rw [hzero]
    exact List.mem_replicate.2 ⟨by omega, rfl⟩
  have hps : computeDeltas (P fs) (P fs) ∈
      (frameList fs fe).map fun f => computeDeltas (P f) (P fs) :=
    List.mem_map.2 ⟨fs, frameList_mem.2 ⟨le_refl fs, hfr⟩, rfl⟩
  obtain ⟨mm, hmm, hb⟩ := find_min_max_bounds hps hmem0
  obtain ⟨b1, b2, b3, b4, b5, b6⟩ := hb
  obtain ⟨res, henc, hw, ht, hn, hts, hdel, hmmres, himg⟩ :=
    @encode_vat_run sc P ws hmesh hreads hlens hclen fs fe hfr false
      (fun h => absurd h (by decide)) hVlt hFlt force c0 _ hmm
  have hdl : dictLookup fs res.all_deltas =
      some (computeDeltas (P fs) (P fs), ([] : List Vec3)) := by
    rw [hdel]
    exact dictLookup_map (g := fun f =>
      (computeDeltas (P f) (P fs), ([] : List Vec3)))
      (frameList_mem.2 ⟨le_refl fs, hfr⟩)
  rw [hzero] at hdl
  have hrow0 : res.image_data[0]? = some (List.replicate sc.vertexCount
      (pixelOfDelta mm ((0 : Rat), (0 : Rat), (0 : Rat)))) := by
    have h0 : (0 : Nat) < (fe + 1 - fs).toNat := by omega
    rw [himg]
    simp only [Bool.false_eq_true, if_false]
    rw [List.getElem?_map, frameList_getElem? fs fe 0 h0]
    have h00 : fs + ((0 : Nat) : Int) = fs := by simp
    simp only [Option.map_some', h00, hzero, List.map_replicate]
  exact ⟨mm, res, henc, hmmres, hdl, hrow0, rfl,
    decode_zero_bound b1 b2, decode_zero_bound b3 b4,
    decode_zero_bound b5 b6⟩

theorem claim_C8_witness :
    ∃ (mm : MinMax) (res : VatResult),
      encode_vat constScene 0 1 false false true false false 88 =
        (88, .ok res) ∧
      res.minmax = some mm ∧
      dictLookup 0 res.all_deltas =
        some (List.replicate constScene.vertexCount
          ((0 : Rat), (0 : Rat), (0 : Rat)), ([] : List Vec3)) ∧
      res.image_data[0]? = some (List.replicate constScene.vertexCount
        (pixelOfDelta mm ((0 : Rat), (0 : Rat), (0 : Rat)))) := by
  obtain ⟨mm, res, henc, hsome, hdl, hrow0, hpix, d1, d2, d3⟩ :=
    @claim_C8_amended constScene
      (fun _ => [((0 : Rat), (0 : Rat), (0 : Rat))]) true rfl
      (fun f => rfl) (fun f => rfl)
      (fun l => by show (0 : Nat) < 2 ^ 32; norm_num)
      0 1 (by decide) (by decide) (by decide) (by decide) false 88
  exact ⟨mm, res, henc, hsome, hdl, hrow0⟩

/-- C8 (counterexample): in a 3-frame run whose x-range is `[-1, 23/10]`,
row 0 of the texture (the proxy frame, delta zero) quantizes to pixel 77,
and decoding 77 gives `-1 + 77/255 * (33/10) = -3/850 ≠ 0` — the row does
*not* decode to exactly the proxy position. -/
theorem claim_C8_counterexample :
    remap_value 0 (-1) (23 / 10) 0 255 = 77 ∧
    (exceptToOption (encode_vat skewScene 0 2 false false true false false
      99).2).bind (fun r => r.image_data[0]?) =
      some [((77 : Int), 77, 77)] ∧
    (exceptToOption (encode_vat skewScene 0 2 false false true false false
      99).2).bind (fun r => r.minmax) =
      some ⟨-1, -1, -1, 23 / 10, 23 / 10, 23 / 10⟩ ∧
    (-1 : Rat) + (77 : Rat) / 255 * (23 / 10 - (-1)) ≠ 0 := by
  have hremap : remap_value 0 (-1) (23 / 10) 0 255 = 77 := by
    rw [remap_value_eq_floor 0 (-1) (23 / 10) (by norm_num) (by norm_num)]
    have he : ((0 : Rat) - (-1)) / ((23 / 10 : Rat) - (-1)) * 255 =
        850 / 11 := by norm_num
    rw [he]
    have hf : (⌊(850 / 11 : Rat)⌋ : Int) = 77 := by
      apply Int.floor_eq_iff.2
      constructor <;> norm_num
    exact hf
  have hlens : ∀ f, (skewP f).length = skewScene.vertexCount := by
    intro f
    unfold skewP
    by_cases h0 : f = 0
    · rw [if_pos h0]; rfl
    · rw [if_neg h0]
      by_cases h1 : f = 1
      · rw [if_pos h1]; rfl
      · rw [if_neg h1]; rfl
  have hfl : frameList 0 2 = [0, 1, 2] := by decide
  have hd0 : computeDeltas (skewP 0) (skewP 0) =
      [((0 : Rat), (0 : Rat), (0 : Rat))] := by
    norm_num [skewP, computeDeltas]
  have hd1 : computeDeltas (skewP 1) (skewP 0) =
      [((-1 : Rat), (-1 : Rat), (-1 : Rat))] := by
    norm_num [skewP, computeDeltas]
  have hd2 : computeDeltas (skewP 2) (skewP 0) =
      [((23 / 10 : Rat), (23 / 10 : Rat), (23 / 10 : Rat))] := by
    norm_num [skewP, computeDeltas]
  have hmm : find_min_max ((frameList 0 2).map fun f =>
      computeDeltas (skewP f) (skewP 0)) =
      some ⟨-1, -1, -1, 23 / 10, 23 / 10, 23 / 10⟩ := by
    rw [hfl]
    simp only [List.map_cons, List.map_nil, hd0, hd1, hd2]
    norm_num [find_min_max, mmUpdate, min_def, max_def]
  obtain ⟨res, henc, hw, ht, hn, hts, hdel, hmmres, himg⟩ :=
    @encode_vat_run skewScene skewP true rfl (fun f => rfl) hlens
      (fun l => by show (0 : Nat) < 2 ^ 32; norm_num)
      0 2 (by decide) false (fun h => absurd h (by decide))
      (by decide) (by decide) false 99 _ hmm
  refine ⟨hremap, ?_, ?_, by norm_num⟩
  · rw [henc]
    simp only [exceptToOption, Option.some_bind]
    rw [himg]
    simp only [Bool.false_eq_true, if_false]
    rw [hfl]
    simp only [List.map_cons, List.getElem?_cons_zero, hd0, pixelOfDelta,
      List.map_cons, List.map_nil]
    rw [hremap]
  · rw [henc]
    simp only [exceptToOption, Option.some_bind]
    exact hmmres

-- a quick sanity check of the embedding on concrete numbers
example : remap_value (1/2) 0 1 0 255 = 127 := by
  norm_num [remap_value, truncInt]
example : remap_value 0 2 2 7 255 = 7 := by decide
example : frameList 1 3 = [1, 2, 3] := by decide
example : computeDeltas [(3, 4, 5)] [(1, 1, 1)] = [(2, 3, 4)] := by
  norm_num [computeDeltas]
example : find_min_max [[(0, 0, 0)], [(-1, 2, 0)]] =
    some ⟨-1, 0, 0, 0, 2, 0⟩ := by
  norm_num [find_min_max, mmUpdate]
